import Mathlib

/-!
Verification of the HTTP server in `HTTP.py` (classes `HTTP_Message` and
`HTTP_Server`).  The Python code is shallowly embedded:

* a Python `str` is modelled as a `List Nat` of Unicode codepoints, a Python
  `bytes` as a `List Nat` of byte values (`py` converts a Lean string literal
  to the codepoint list);
* Python exceptions (`HTTPBadRequest`, `UnicodeDecodeError`, `IndexError`,
  `ValueError`, `TypeError`) become the error side of `Except PyErr`;
* a Python `dict` (insertion ordered, last write wins) becomes an ordered
  association list with `dictSet` / `dictGet`;
* the filesystem seen through `os.path.isfile` / `os.path.isdir` /
  `os.listdir` / `open(..).read()` is a finite map from resolved absolute
  path components to nodes; `os.listdir` enumeration order (which the OS
  does not specify and the code never sorts) is modelled as the stored
  entry order;
* library collaborators (`bytes.decode("utf-8")` / `bytes(s, "utf-8")`,
  `urllib.parse.unquote` restricted to ASCII escapes, `mimetypes.guess_type`
  as a representative extension table with no Content-Encoding, and
  `datetime.now().strftime(..) + "EST"` as an opaque `now` string parameter)
  are modelled explicitly below.
-/

set_option maxRecDepth 8000

/-- Unicode codepoints of a string literal: the model of a Python `str`. -/
def py (s : String) : List Nat := s.data.map Char.toNat

/-- `leadsWith pre xs` is true when `pre` is an initial segment of `xs`
(the model of Python slice comparison / `str.startswith`). -/
def leadsWith : List Nat → List Nat → Bool
  | [], _ => true
  | _ :: _, [] => false
  | a :: as, b :: bs => a == b && leadsWith as bs

/-- `splitSeqAux c cs acc xs fuel` splits `xs` at each occurrence of the
nonempty separator `c :: cs`, left to right, `acc` holding the reversed
current fragment; `fuel` bounds the recursion (any `fuel ≥ xs.length`
gives the same answer).  With full fuel this is the model of Python
`str.split(sep)` for nonempty `sep`. -/
def splitSeqAux (c : Nat) (cs : List Nat) : List Nat → List Nat → Nat → List (List Nat)
  | acc, [], _ => [acc.reverse]
  | acc, _ :: _, 0 => [acc.reverse]
  | acc, x :: xs, fuel + 1 =>
    if leadsWith (c :: cs) (x :: xs) then
      acc.reverse :: splitSeqAux c cs [] (xs.drop cs.length) fuel
    else
      splitSeqAux c cs (x :: acc) xs fuel

/-- Python `xs.split(sep)` with `sep = c :: cs`. -/
def splitSeq (c : Nat) (cs : List Nat) (xs : List Nat) : List (List Nat) :=
  splitSeqAux c cs [] xs xs.length

/-- `hasSeq c cs xs`: the separator `c :: cs` occurs somewhere in `xs`
(the model of Python `sep in s`). -/
def hasSeq (c : Nat) (cs : List Nat) : List Nat → Bool
  | [] => false
  | x :: xs => leadsWith (c :: cs) (x :: xs) || hasSeq c cs xs

/-- A codepoint a Python `str` produced by strict UTF-8 decoding can hold:
everything below the surrogate range, or between it and `0x110000`. -/
def ValidCp (n : Nat) : Prop := n < 0xD800 ∨ (0xE000 ≤ n ∧ n < 0x110000)

instance (n : Nat) : Decidable (ValidCp n) := by unfold ValidCp; infer_instance

/-- UTF-8 bytes of one codepoint: the model of Python `str.encode("utf-8")`
for a single character. -/
def utf8EncodeCp (n : Nat) : List Nat :=
  if n < 0x80 then [n]
  else if n < 0x800 then [0xC0 + n / 64, 0x80 + n % 64]
  else if n < 0x10000 then [0xE0 + n / 4096, 0x80 + n / 64 % 64, 0x80 + n % 64]
  else [0xF0 + n / 262144, 0x80 + n / 4096 % 64, 0x80 + n / 64 % 64, 0x80 + n % 64]

/-- The model of Python `bytes(s, "utf-8")`. -/
def utf8Encode (s : List Nat) : List Nat :=
  s.foldr (fun cp acc => utf8EncodeCp cp ++ acc) []

/-- The continuation bytes of a two-byte UTF-8 sequence led by `b`. -/
def utf8Cont2 (b : Nat) : List Nat → Option (Nat × List Nat)
  | b1 :: rest =>
    if 0x80 ≤ b1 ∧ b1 < 0xC0 then some ((b - 0xC0) * 64 + (b1 - 0x80), rest) else none
  | [] => none

/-- The continuation bytes of a three-byte UTF-8 sequence led by `b`,
rejecting overlong and surrogate codepoints. -/
def utf8Cont3 (b : Nat) : List Nat → Option (Nat × List Nat)
  | b1 :: b2 :: rest =>
    if (0x80 ≤ b1 ∧ b1 < 0xC0) ∧ (0x80 ≤ b2 ∧ b2 < 0xC0) ∧
        0x800 ≤ (b - 0xE0) * 4096 + (b1 - 0x80) * 64 + (b2 - 0x80) ∧
        ¬(0xD800 ≤ (b - 0xE0) * 4096 + (b1 - 0x80) * 64 + (b2 - 0x80) ∧
          (b - 0xE0) * 4096 + (b1 - 0x80) * 64 + (b2 - 0x80) < 0xE000) then
      some ((b - 0xE0) * 4096 + (b1 - 0x80) * 64 + (b2 - 0x80), rest)
    else none
  | _ => none

/-- The continuation bytes of a four-byte UTF-8 sequence led by `b`,
rejecting overlong and out-of-range codepoints. -/
def utf8Cont4 (b : Nat) : List Nat → Option (Nat × List Nat)
  | b1 :: b2 :: b3 :: rest =>
    if (0x80 ≤ b1 ∧ b1 < 0xC0) ∧ (0x80 ≤ b2 ∧ b2 < 0xC0) ∧ (0x80 ≤ b3 ∧ b3 < 0xC0) ∧
        0x10000 ≤ (b - 0xF0) * 262144 + (b1 - 0x80) * 4096 + (b2 - 0x80) * 64 + (b3 - 0x80) ∧
        (b - 0xF0) * 262144 + (b1 - 0x80) * 4096 + (b2 - 0x80) * 64 + (b3 - 0x80) < 0x110000 then
      some ((b - 0xF0) * 262144 + (b1 - 0x80) * 4096 + (b2 - 0x80) * 64 + (b3 - 0x80), rest)
    else none
  | _ => none

/-- One strict UTF-8 decoding step: the codepoint led by byte `b` and the
bytes that follow it, or `none` on an invalid or truncated sequence. -/
def utf8DecodeStep (b : Nat) (bs : List Nat) : Option (Nat × List Nat) :=
  if b < 0x80 then some (b, bs)
  else if b < 0xC2 then none
  else if b < 0xE0 then utf8Cont2 b bs
  else if b < 0xF0 then utf8Cont3 b bs
  else if b < 0xF5 then utf8Cont4 b bs
  else none

/-- The decoding loop; `fuel ≥` the byte count makes it total (each step
consumes at least the leading byte). -/
def utf8DecodeAux : Nat → List Nat → Option (List Nat)
  | _, [] => some []
  | 0, _ :: _ => none
  | fuel + 1, b :: bs =>
    match utf8DecodeStep b bs with
    | some (cp, rest) => (utf8DecodeAux fuel rest).map (cp :: ·)
    | none => none

/-- Strict UTF-8 decoding, rejecting truncated, overlong, surrogate and
out-of-range sequences: the model of Python `bytes.decode("utf-8")`, with
`none` standing for `UnicodeDecodeError`. -/
def utf8Decode (bs : List Nat) : Option (List Nat) :=
  utf8DecodeAux bs.length bs

/-- Ordered association list with `Option`al values: the model of the Python
header `dict` (a value `none` models Python `None`, as stored by
`serve_file` for an unknown MIME type). -/
abbrev Headers := List (List Nat × Option (List Nat))

/-- `d[k] = v` on a Python dict: overwrite in place when the key exists
(its position and the insertion order preserved), append otherwise. -/
def dictSet : Headers → List Nat → Option (List Nat) → Headers
  | [], k, v => [(k, v)]
  | p :: d, k, v => if p.1 = k then (k, v) :: d else p :: dictSet d k v

/-- Lookup in the model dict: `some v` when the key is present with value
`v` (itself an `Option`), `none` when the key is absent. -/
def dictGet (d : Headers) (k : List Nat) : Option (Option (List Nat)) :=
  (d.find? (fun p => p.1 = k)).map (·.2)

/-- A node of the modelled filesystem. -/
inductive FsNode
  | file (content : List Nat)
  | dir
deriving DecidableEq

/-- The filesystem: resolved absolute path components (each component a
codepoint string) mapped to nodes, in OS enumeration order. -/
structure FS where
  entries : List (List (List Nat) × FsNode)
deriving DecidableEq

/-- Resolution of a POSIX path string to its list of components: split on
`/`, drop empty and `.` components, let `..` remove the previous component
(clamped at the root, as the OS does for absolute paths).  This models what
the operating system resolves when `os.path.isfile` / `os.path.isdir` /
`open` receive the path string; the code itself never normalizes. -/
def resolvePath (s : List Nat) : List (List Nat) :=
  (splitSeq 47 [] s).foldl
    (fun acc comp =>
      if comp = [] ∨ comp = [46] then acc
      else if comp = [46, 46] then acc.dropLast
      else acc ++ [comp]) []

/-- The model of Python `os.path.join` (POSIX form, two arguments): an
absolute second argument replaces the first, otherwise the parts are glued
with a single separator. -/
def osPathJoin (a b : List Nat) : List Nat :=
  match b with
  | 47 :: _ => b
  | _ => if a = [] ∨ a.getLast? = some 47 then a ++ b else a ++ [47] ++ b

def fsFind (fs : FS) (p : List (List Nat)) : Option FsNode :=
  (fs.entries.find? (fun e => e.1 = p)).map (·.2)

/-- The model of `os.path.isfile` on a path string. -/
def isfile (fs : FS) (path : List Nat) : Bool :=
  match fsFind fs (resolvePath path) with
  | some (.file _) => true
  | _ => false

/-- The model of `os.path.isdir` on a path string. -/
def isdir (fs : FS) (path : List Nat) : Bool :=
  match fsFind fs (resolvePath path) with
  | some .dir => true
  | _ => false

/-- The model of `open(path, "rb").read()` for a path whose file exists
(every call site checks `os.path.isfile` first). -/
def fsRead (fs : FS) (path : List Nat) : List Nat :=
  match fsFind fs (resolvePath path) with
  | some (.file c) => c
  | _ => []

/-- The model of `os.listdir(path)`: the names of the immediate children,
in the filesystem's enumeration order (the OS does not sort them and the
code never does either). -/
def listdir (fs : FS) (path : List Nat) : List (List Nat) :=
  let p := resolvePath path
  fs.entries.filterMap (fun e =>
    match e.1.getLast? with
    | some n => if e.1.dropLast = p ∧ e.1 ≠ p then some n else none
    | none => none)

/-- Is this codepoint an ASCII hex digit (for `%xx` escapes)? -/
def isHexCp (n : Nat) : Bool :=
  decide ((48 ≤ n ∧ n ≤ 57) ∨ (65 ≤ n ∧ n ≤ 70) ∨ (97 ≤ n ∧ n ≤ 102))

def hexVal (n : Nat) : Nat :=
  if n ≤ 57 then n - 48 else if n ≤ 70 then n - 55 else n - 87

/-- The model of `urllib.parse.unquote` on the fragment the claims use:
each valid `%xx` escape becomes the escaped byte's codepoint and invalid
escapes stay literal.  (Python additionally groups consecutive escapes and
decodes them as UTF-8; the theorems below only apply this model to URIs
whose escapes, if any, are ASCII, where the two behaviours agree.) -/
def unquote : List Nat → List Nat
  | 37 :: b1 :: b2 :: rest =>
    if isHexCp b1 && isHexCp b2 then (hexVal b1 * 16 + hexVal b2) :: unquote rest
    else 37 :: unquote (b1 :: b2 :: rest)
  | c :: rest => c :: unquote rest
  | [] => []

/-- Python exceptions the embedded code can raise: `HTTPBadRequest` (the
class `HTTP.py` itself defines), `UnicodeDecodeError` from `bytes.decode`,
`IndexError` from an out-of-range subscript, `ValueError` from tuple
unpacking of a `split` result, and `TypeError` from a call with too many
arguments or from concatenating `None` to a string. -/
inductive PyErr
  | badRequest
  | unicodeError
  | indexError
  | valueError
  | typeError
deriving DecidableEq

deriving instance DecidableEq for Except

/-- The module-level constant `HTTP_VERSION = "HTTP/1.1"`. -/
def HTTP_VERSION : List Nat := py "HTTP/1.1"

/-- The keys of the module-level table `STATUS_CODES` (every call site of
`create_response` / `serve_error` passes one of these four). -/
inductive Status
  | ok
  | badRequest
  | notFound
  | notImplemented
deriving DecidableEq

/-- The module-level table `STATUS_CODES`. -/
def STATUS_CODES : Status → List Nat
  | .ok => py "200 OK"
  | .badRequest => py "400 Bad Request"
  | .notFound => py "404 Not Found"
  | .notImplemented => py "501 Not Implemented"

/-- The module-level table `METHODS` (the eight RFC 2616 methods). -/
def METHODS : List (List Nat) :=
  [py "OPTIONS", py "GET", py "HEAD", py "POST", py "PUT", py "DELETE",
   py "TRACE", py "CONNECT"]

/-- The module-level table `IMPLEMENTED_METHODS`. -/
def IMPLEMENTED_METHODS : List (List Nat) := [py "GET", py "HEAD"]

namespace HTTP_Message

/-- An `HTTP_Message` on which `parse_request` succeeded: `request_line`
split into its three entries, the header dict, and the body (the final
CRLF-separated line of the decoded text, a `str` in Python). -/
structure ParsedReq where
  method : List Nat
  uri : List Nat
  version : List Nat
  headers : Headers
  body : List Nat
deriving DecidableEq

/-- An `HTTP_Message` used as a response: `status_line` (`None` until
`create_response` runs), the header dict, and the body bytes. -/
structure RespMsg where
  status_line : Option (List Nat)
  headers : Headers
  body : List Nat
deriving DecidableEq

/-- The header loop of `parse_request`:
`for line in headers: (field, value) = line.split(": ")` — a line whose
split is not exactly two parts raises `ValueError` (unpacking). -/
def parseHeadersAux (acc : Headers) : List (List Nat) → Except PyErr Headers
  | [] => .ok acc
  | l :: ls =>
    match splitSeq 58 [32] l with
    | [f, v] => parseHeadersAux (dictSet acc f (some v)) ls
    | _ => .error .valueError

/-- `HTTP_Message.parse_request`, faithful to `HTTP.py` lines 51-78:
reject inputs shorter than 16 bytes with `HTTPBadRequest`; decode as UTF-8
(`UnicodeDecodeError` on failure); split on CRLF; the first line is the
request line (subscripting its space-split at 0,1,2 — `IndexError` when it
has fewer than three tokens, extra tokens ignored); `lines[1:-2]` are the
header lines; `lines[-1]` is the body. -/
def parse_request (data : List Nat) : Except PyErr ParsedReq :=
  if data.length < 16 then .error .badRequest
  else
    match utf8Decode data with
    | none => .error .unicodeError
    | some req =>
      let lines := splitSeq 13 [10] req
      let request_line := lines.headD []
      let headers := ((lines.drop 1).dropLast).dropLast
      let http_message_line := lines.getLastD []
      match splitSeq 32 [] request_line with
      | m :: u :: v :: _ =>
        match parseHeadersAux [] headers with
        | .ok hs => .ok ⟨m, u, v, hs, http_message_line⟩
        | .error e => .error e
      | _ => .error .indexError

/-- `HTTP_Message.create_response`, lines 80-90: set the status line from
`HTTP_VERSION` and `STATUS_CODES`, then the `Connection`, `Server`, `Date`
and `Content-Length` headers (`now` models the
`datetime.now().strftime(..) + "EST"` timestamp string). -/
def create_response (m : RespMsg) (status : Status) (now : List Nat) : RespMsg :=
  let h := dictSet m.headers (py "Connection") (some (py "close"))
  let h := dictSet h (py "Server") (some (py "PythonServer/1.0 (Windows 10)"))
  let h := dictSet h (py "Date") (some now)
  let h := dictSet h (py "Content-Length") (some (py (toString m.body.length)))
  { status_line := some (HTTP_VERSION ++ py " " ++ STATUS_CODES status)
    headers := h
    body := m.body }

/-- The header loop of `to_bytestring`: `ret += field + ": " + value +
newline` — a `None` value raises `TypeError` (`str` + `NoneType`). -/
def headerText (acc : List Nat) : Headers → Except PyErr (List Nat)
  | [] => .ok acc
  | (_, none) :: _ => .error .typeError
  | (f, some v) :: hs => headerText (acc ++ f ++ py ": " ++ v ++ py "\r\n") hs

/-- `HTTP_Message.to_bytestring`, lines 92-117: status line, headers in
insertion order, one blank line — all UTF-8 encoded — then the body bytes
when nonempty, then one trailing CRLF. -/
def to_bytestring (m : RespMsg) : Except PyErr (List Nat) :=
  match m.status_line with
  | none => .error .typeError
  | some sl =>
    match headerText (sl ++ py "\r\n") m.headers with
    | .error e => .error e
    | .ok text =>
      let bs := utf8Encode (text ++ py "\r\n")
      let bs := if m.body ≠ [] then bs ++ m.body else bs
      .ok (bs ++ utf8Encode (py "\r\n"))

end HTTP_Message


namespace HTTP_Server

open HTTP_Message

/-- A representative model of the collaborator `mimetypes.guess_type`
restricted to its first component (the type): the extension after the last
dot of the path's basename looked up in a fixed table, `none` (Python
`None`) for an unknown extension.  The second component (the encoding) is
`None` for every path this development evaluates, so the
`Content-Encoding` branch of `serve_file` never fires and is omitted. -/
def mimeGuess (p : List Nat) : Option (List Nat) :=
  let base := (splitSeq 47 [] p).getLastD []
  match splitSeq 46 [] base with
  | [] => none
  | [_] => none
  | parts =>
    if base.headD 0 = 46 ∧ parts.length = 2 then none
    else
      let e := parts.getLastD []
      if e = py "html" ∨ e = py "htm" then some (py "text/html")
      else if e = py "txt" then some (py "text/plain")
      else if e = py "css" then some (py "text/css")
      else none

/-- `HTTP_Server.serve_error`, lines 202-215: a fresh message, the HTML
error body and `Content-Type` only when `method_head` is false, then
`create_response`. -/
def serve_error (t : Status) (method_head : Bool) (now : List Nat) : RespMsg :=
  let ret : RespMsg := ⟨none, [], []⟩
  let ret :=
    if method_head then ret
    else
      { ret with
        body := utf8Encode
          (py "<html><body><h1>" ++ STATUS_CODES t ++ py "</h1></body></html>")
        headers := dictSet ret.headers (py "Content-Type") (some (py "text/html")) }
  create_response ret t now

/-- `HTTP_Server.serve_file`, lines 217-236: read the file bytes unless
`method_head`, `create_response("OK")`, then store the guessed MIME type —
possibly `None` — under `Content-Type`. -/
def serve_file (fs : FS) (file_path : List Nat) (method_head : Bool) (now : List Nat) :
    RespMsg :=
  let ret : RespMsg := ⟨none, [], if method_head then [] else fsRead fs file_path⟩
  let ret := create_response ret .ok now
  { ret with headers := dictSet ret.headers (py "Content-Type") (mimeGuess file_path) }

/-- One `<p><a href='uri/d'>d/</a></p>` link of the listing's directory
loop. -/
def dirLink (uri d : List Nat) : List Nat :=
  py "<p><a href='" ++ uri ++ py "/" ++ d ++ py "'>" ++ d ++ py "/" ++ py "</a></p>"

/-- One `<p><a href='uri/f'>f</a></p>` link of the listing's file loop. -/
def fileLink (uri f : List Nat) : List Nat :=
  py "<p><a href='" ++ uri ++ py "/" ++ f ++ py "'>" ++ f ++ py "</a></p>"

/-- The listing fragment of `serve_directory_listing`: the empty notice
when there are neither files nor subdirectories, otherwise the directory
links (in enumeration order) followed by the file links. -/
def listingHtml (uri : List Nat) (dirs files : List (List Nat)) : List Nat :=
  if files = [] ∧ dirs = [] then py "<p>This directory is empty.</p>"
  else
    (dirs.map (dirLink uri)).foldr (· ++ ·) [] ++
      (files.map (fileLink uri)).foldr (· ++ ·) []

/-- `HTTP_Server.serve_directory_listing`, lines 238-265: unless
`method_head`, partition `os.listdir` into files and subdirectories (kept
in enumeration order — the code never sorts), build the HTML body and set
`Content-Type`; then `create_response("OK")`. -/
def serve_directory_listing (fs : FS) (path uri : List Nat) (method_head : Bool)
    (now : List Nat) : RespMsg :=
  let response : RespMsg := ⟨none, [], []⟩
  let response :=
    if method_head then response
    else
      let files := (listdir fs path).filter (fun i => isfile fs (osPathJoin path i))
      let dirs := (listdir fs path).filter (fun i => isdir fs (osPathJoin path i))
      { response with
        body := utf8Encode
          (py "<html><body><h1>Index of: " ++ uri ++ py "</h1>" ++
            listingHtml uri dirs files ++ py "</body></html>")
        headers := dictSet response.headers (py "Content-Type") (some (py "text/html")) }
  create_response response .ok now

/-- The index-file probe of `http_method_get`, lines 174-178: try
`index.html` then `index.htm` inside the directory, first existing file
wins. -/
def indexProbe (fs : FS) (path : List Nat) : Option (List Nat) :=
  if isfile fs (osPathJoin path (py "index.html")) then
    some (osPathJoin path (py "index.html"))
  else if isfile fs (osPathJoin path (py "index.htm")) then
    some (osPathJoin path (py "index.htm"))
  else none

/-- `HTTP_Server.http_method_get`, lines 162-192: percent-decode the URI,
join `web_root` with the URI minus its first character, then serve the
directory index, the directory listing, the file, or a 404 — with no
containment check of the joined path against `web_root`. -/
def http_method_get (fs : FS) (web_root : List Nat) (req : ParsedReq)
    (method_head : Bool) (now : List Nat) : RespMsg :=
  let uri := unquote req.uri
  let path := osPathJoin web_root (uri.drop 1)
  if isdir fs path then
    match indexProbe fs path with
    | none => serve_directory_listing fs path uri method_head now
    | some index_file => serve_file fs index_file method_head now
  else if isfile fs path then serve_file fs path method_head now
  else serve_error .notFound method_head now

/-- `HTTP_Server.http_method_head` as `def`ined on lines 194-200: it takes
only the request (besides `self`) and forwards to `http_method_get` with
the body omitted.  The router's call site passes it a second positional
argument, which Python rejects before this body ever runs — see
`parse_request` below. -/
def http_method_head (fs : FS) (web_root : List Nat) (req : ParsedReq)
    (now : List Nat) : RespMsg :=
  http_method_get fs web_root req true now

/-- `HTTP_Server.parse_request` (the router), lines 139-160: methods
outside `METHODS` get a 400, known-but-unimplemented methods a 501, `GET`
runs `http_method_get(req)` (body included).  The `HEAD` branch executes
`self.http_method_head(req, True)`: `http_method_head` accepts one
positional argument besides `self`, so the call raises `TypeError` before
any handler runs — encoded as `.error .typeError`.  If none of the branches
matched, the Python function would fall off the end and return `None`,
encoded as `.ok none` (unreachable, since the earlier branches cover
everything outside `{GET, HEAD}`). -/
def parse_request (fs : FS) (web_root : List Nat) (req : ParsedReq) (now : List Nat) :
    Except PyErr (Option RespMsg) :=
  let method := req.method
  if method ∉ METHODS then .ok (some (serve_error .badRequest false now))
  else if method ∉ IMPLEMENTED_METHODS then
    .ok (some (serve_error .notImplemented false now))
  else if method = py "GET" then .ok (some (http_method_get fs web_root req false now))
  else if method = py "HEAD" then .error .typeError
  else .ok none

/-- One iteration of the Responder loop `HTTP_Server._process_requests`,
lines 280-294, on a dequeued `(clientsocket, data)` pair.  `some bs` means
the serialized response `bs` was sent and the connection closed; `none`
means the iteration raised an uncaught exception, so nothing was sent, the
connection was not closed and the Responder process terminated.  Only
`HTTPBadRequest` is caught; any other exception from parsing or routing
propagates (the `finally` block then aborts too, since `response` is
unbound), and a serialization error inside the `finally` block also
propagates. -/
def process_requests_step (fs : FS) (web_root : List Nat) (now : List Nat)
    (data : List Nat) : Option (List Nat) :=
  match HTTP_Message.parse_request data with
  | .error .badRequest =>
    match to_bytestring (serve_error .badRequest false now) with
    | .ok bs => some bs
    | .error _ => none
  | .error _ => none
  | .ok request =>
    match parse_request fs web_root request now with
    | .error _ => none
    | .ok none => none
    | .ok (some response) =>
      match to_bytestring response with
      | .ok bs => some bs
      | .error _ => none

end HTTP_Server

section Fixtures
open HTTP_Message HTTP_Server

/-- `root.isDescendant path` over resolved components: the resolved root is
an initial segment of the resolved path.  Used to state containment. -/
def underRoot : List (List Nat) → List (List Nat) → Bool
  | [], _ => true
  | _ :: _, [] => false
  | a :: as, b :: bs => a == b && underRoot as bs

/-- Concrete filesystem for the closed theorems: a web root `/var/www`
holding a plain text file, a file with an unknown extension, a directory
`d` whose two files are enumerated in unsorted order, an empty directory
`e` — and `/etc/passwd` outside the root. -/
def fsA : FS := ⟨[
  ([py "var"], .dir),
  ([py "var", py "www"], .dir),
  ([py "etc"], .dir),
  ([py "etc", py "passwd"], .file (py "root:secret")),
  ([py "var", py "www", py "f.txt"], .file (py "hello")),
  ([py "var", py "www", py "data.xyz"], .file [1, 2, 3]),
  ([py "var", py "www", py "d"], .dir),
  ([py "var", py "www", py "d", py "b.txt"], .file (py "B")),
  ([py "var", py "www", py "d", py "a.txt"], .file (py "A")),
  ([py "var", py "www", py "e"], .dir)
]⟩

def rootA : List Nat := py "/var/www"
def nowA : List Nat := py "Sun, 12 Oct 2026 00:00:00 EST"

def reqPATCH : HTTP_Message.ParsedReq := ⟨py "PATCH", py "/", py "HTTP/1.1", [], []⟩
def reqTRACE : HTTP_Message.ParsedReq := ⟨py "TRACE", py "/", py "HTTP/1.1", [], []⟩
def reqHEAD : HTTP_Message.ParsedReq := ⟨py "HEAD", py "/f.txt", py "HTTP/1.1", [], []⟩

/-- A GET request for the plain file `/f.txt` of `fsA`. -/
def reqGET : HTTP_Message.ParsedReq := ⟨py "GET", py "/f.txt", py "HTTP/1.1", [], []⟩

/-- A GET request for a URI no entry of `fsA` matches. -/
def reqMissing : HTTP_Message.ParsedReq := ⟨py "GET", py "/nope", py "HTTP/1.1", [], []⟩

/-- A GET request for the unknown-extension file `/data.xyz` of `fsA`. -/
def reqXyz : HTTP_Message.ParsedReq := ⟨py "GET", py "/data.xyz", py "HTTP/1.1", [], []⟩

/-- A GET request for the unsorted directory `/d` of `fsA`. -/
def reqDirD : HTTP_Message.ParsedReq := ⟨py "GET", py "/d", py "HTTP/1.1", [], []⟩

/-- A GET request escaping the document root of `fsA`. -/
def reqEscape : HTTP_Message.ParsedReq :=
  ⟨py "GET", py "/../../etc/passwd", py "HTTP/1.1", [], []⟩

/-- The path `http_method_get` hands to the filesystem for `reqEscape`. -/
def escapePath : List Nat := osPathJoin rootA ((unquote (py "/../../etc/passwd")).drop 1)

/-- Which branch of `http_method_get` serves an actual file (directly or as
a directory index): on these branches — and only these — `serve_file` runs
and a `Content-Type` header is stored for a body-omitted request. -/
def servedFileBranch (fs : FS) (web_root : List Nat) (req : HTTP_Message.ParsedReq) : Bool :=
  let path := osPathJoin web_root ((unquote req.uri).drop 1)
  if isdir fs path then (indexProbe fs path).isSome else isfile fs path

/-- The serialized 400 response the Responder sends after a recovered
`HTTPBadRequest` (`serve_error` output is always serializable). -/
def errorResponseBytes (now : List Nat) : List Nat :=
  match HTTP_Message.to_bytestring (serve_error .badRequest false now) with
  | .ok bs => bs
  | .error _ => []

/-- The response the router yields for `reqGET` against `fsA`. -/
def respGET : HTTP_Message.RespMsg :=
  match HTTP_Server.parse_request fsA rootA reqGET nowA with
  | .ok (some r) => r
  | _ => ⟨none, [], []⟩

/-- A response built by `create_response` on a fresh message (as every
server path does), used to test the serialize/parse mirror. -/
def respFresh : HTTP_Message.RespMsg := create_response ⟨none, [], []⟩ .ok nowA

/-- The serialized bytes of `respFresh`. -/
def respFreshBytes : List Nat :=
  match HTTP_Message.to_bytestring respFresh with
  | .ok bs => bs
  | .error _ => []

/-- The header-line encoder for synthetic requests: each `field: value`
line followed by CRLF, then the blank line and the body. -/
def encodeTail : List (List Nat × List Nat) → List Nat → List Nat
  | [], body => 13 :: 10 :: body
  | (f, w) :: rest, body => f ++ 58 :: 32 :: w ++ 13 :: 10 :: encodeTail rest body

/-- The decoded text of a synthetic request built from its components. -/
def reqText (m u v : List Nat) (hs : List (List Nat × List Nat)) (body : List Nat) :
    List Nat :=
  m ++ 32 :: u ++ 32 :: v ++ 13 :: 10 :: encodeTail hs body

/-- A well-formed synthetic request as bytes. -/
def encodeRequest (m u v : List Nat) (hs : List (List Nat × List Nat)) (body : List Nat) :
    List Nat :=
  utf8Encode (reqText m u v hs body)

end Fixtures

section Lemmas
open HTTP_Message HTTP_Server

/-- A percent-free URI passes through `unquote` unchanged (and the Python
behaviour on such URIs agrees with the model exactly). -/
theorem unquote_no_escape (s : List Nat) (h : 37 ∉ s) : unquote s = s := by
  induction s with
  | nil => rfl
  | cons c rest ih =>
    have hc : c ≠ 37 := fun hx => h (hx ▸ List.mem_cons_self c rest)
    have hr : 37 ∉ rest := fun hx => h (List.mem_cons_of_mem c hx)
    match rest, hr with
    | [], _ => simp [unquote, hc]
    | [b1], hr => simp [unquote, hc]
    | b1 :: b2 :: rest2, hr => simp [unquote, hc, ih hr]

end Lemmas

section ClaimConcrete
open HTTP_Message HTTP_Server

/-- C10: the exact 16-byte input `"GET / HTTP/1.1\r\n"` (a request line and
its CRLF terminator, no blank line and no trailing CRLF pair) parses
successfully — it is not rejected as `HTTPBadRequest` — into method `GET`,
request target `/`, version `HTTP/1.1`, an empty header dict and an empty
body. -/
theorem c10_minimal_request :
    (utf8Encode (py "GET / HTTP/1.1\r\n")).length = 16
  ∧ HTTP_Message.parse_request (utf8Encode (py "GET / HTTP/1.1\r\n")) =
      .ok ⟨py "GET", py "/", py "HTTP/1.1", [], []⟩ := by decide

/-- C4: the router's method policy on the reference table.  A method
outside `METHODS` (PATCH) yields a 400 response; a method in `METHODS` but
not in `{GET, HEAD}` (TRACE) yields a 501 response; `GET` runs the GET
handler with the body included (here a 200 with the file's bytes).  But a
`HEAD` request does not invoke the handler with the body omitted: the
call `self.http_method_head(req, True)` passes a second positional
argument to a method declared with only `(self, req)`, so Python raises
`TypeError` and no response at all is produced — the code contradicts its
own `http_method_head` docstring and the claim's HEAD clause. -/
theorem c4_method_policy_head_bug :
    (HTTP_Server.parse_request fsA rootA reqPATCH nowA).map
        (Option.map RespMsg.status_line) =
      .ok (some (some (py "HTTP/1.1 400 Bad Request")))
  ∧ (HTTP_Server.parse_request fsA rootA reqTRACE nowA).map
        (Option.map RespMsg.status_line) =
      .ok (some (some (py "HTTP/1.1 501 Not Implemented")))
  ∧ (HTTP_Server.parse_request fsA rootA reqGET nowA).map
        (Option.map RespMsg.status_line) =
      .ok (some (some (py "HTTP/1.1 200 OK")))
  ∧ (HTTP_Server.parse_request fsA rootA reqGET nowA).map
        (Option.map RespMsg.body) = .ok (some (py "hello"))
  ∧ reqHEAD.method = py "HEAD"
  ∧ HTTP_Server.parse_request fsA rootA reqHEAD nowA = .error .typeError := by decide

/-- C9: serving a file whose extension the MIME table does not know does
fault.  `mimetypes.guess_type` yields `None`, `serve_file` stores that
`None` under `Content-Type`, and `to_bytestring` then evaluates
`field + ": " + None`, raising `TypeError` — serialization of the
resulting message fails instead of omitting the header or sending a
generic type. -/
theorem c9_unknown_mime_bug :
    mimeGuess (py "/var/www/data.xyz") = none
  ∧ isfile fsA (py "/var/www/data.xyz") = true
  ∧ dictGet (http_method_get fsA rootA reqXyz false nowA).headers
      (py "Content-Type") = some none
  ∧ (http_method_get fsA rootA reqXyz false nowA).status_line =
      some (py "HTTP/1.1 200 OK")
  ∧ to_bytestring (http_method_get fsA rootA reqXyz false nowA) =
      .error .typeError := by decide

/-- C1, counterexample: the code performs no containment check.  Against
document root `/var/www`, the URI `/../../etc/passwd` resolves to
`/etc/passwd`, which is not a descendant of the root, yet the GET handler
answers `200 OK` with that outside file's contents — not `404`. -/
theorem c1_counterexample :
    underRoot (resolvePath rootA) (resolvePath escapePath) = false
  ∧ isfile fsA escapePath = true
  ∧ (http_method_get fsA rootA reqEscape false nowA).status_line =
      some (py "HTTP/1.1 200 OK")
  ∧ (http_method_get fsA rootA reqEscape false nowA).body = py "root:secret"
  ∧ fsRead fsA escapePath = py "root:secret" := by decide

/-- C2, counterexample: parse failures other than the minimum-length check
are not `HTTPBadRequest`.  A 19-byte input whose request line has only two
space-separated tokens fails with `IndexError` (the subscript
`request_line_parts[2]`), not `HTTPBadRequest`; and a request line with
four tokens does not fail at all — it parses, the extra token ignored. -/
theorem c2_counterexample :
    (utf8Encode (py "GET /aaaaaaaaaaaa\r\n")).length = 19
  ∧ HTTP_Message.parse_request (utf8Encode (py "GET /aaaaaaaaaaaa\r\n")) =
      .error .indexError
  ∧ PyErr.indexError ≠ PyErr.badRequest
  ∧ HTTP_Message.parse_request (utf8Encode (py "GET / HTTP/1.1 X\r\n")) =
      .ok ⟨py "GET", py "/", py "HTTP/1.1", [], []⟩ := by decide

/-- C3, counterexample: the Responder does terminate on a malformed
request.  Sixteen `0xFF` bytes pass the length check but are not UTF-8, so
`HTTP_Message.parse_request` raises `UnicodeDecodeError`; the Responder
catches only `HTTPBadRequest`, so the exception propagates: no `400`
response is built, nothing is sent, the connection is not closed and the
Responder process dies (`process_requests_step` returns `none`). -/
theorem c3_counterexample :
    utf8Decode (List.replicate 16 255) = none
  ∧ HTTP_Message.parse_request (List.replicate 16 255) = .error .unicodeError
  ∧ process_requests_step fsA rootA nowA (List.replicate 16 255) = none := by decide

/-- C5, counterexample: a body-omitted (HEAD-style) response does not
report the Content-Length the corresponding GET response reports: for
`/f.txt` (five bytes) GET carries `Content-Length: 5` and the body-omitted
run carries `Content-Length: 0`; and on the error path (a missing URI) the
body-omitted response carries no Content-Type header at all while the GET
response carries `text/html`. -/
theorem c5_counterexample :
    dictGet (http_method_get fsA rootA reqGET false nowA).headers
      (py "Content-Length") = some (some (py "5"))
  ∧ dictGet (http_method_get fsA rootA reqGET true nowA).headers
      (py "Content-Length") = some (some (py "0"))
  ∧ (py "5" : List Nat) ≠ py "0"
  ∧ dictGet (http_method_get fsA rootA reqMissing false nowA).headers
      (py "Content-Type") = some (some (py "text/html"))
  ∧ dictGet (http_method_get fsA rootA reqMissing true nowA).headers
      (py "Content-Type") = none := by decide

/-- C7, counterexample: serialization is not the mirror of request
parsing.  `to_bytestring` writes a trailing CRLF after the body, so
re-splitting its output the way `parse_request` does places the blank
separator line among the header lines: re-parsing the serialized bytes of
a response built by `create_response` fails with `ValueError` instead of
recovering the status line, headers and body. -/
theorem c7_counterexample :
    to_bytestring respFresh = .ok respFreshBytes
  ∧ HTTP_Message.parse_request respFreshBytes = .error .valueError := by decide

/-- C8, counterexample: the directory listing is not sorted.  The children
of `/d` are enumerated as `b.txt, a.txt`; the listing body links them in
that enumeration order, which differs from the sorted order. -/
theorem c8_counterexample :
    listdir fsA (py "/var/www/d") = [py "b.txt", py "a.txt"]
  ∧ (http_method_get fsA rootA reqDirD false nowA).body =
      utf8Encode (py "<html><body><h1>Index of: /d</h1><p><a href='/d/b.txt'>b.txt</a></p><p><a href='/d/a.txt'>a.txt</a></p></body></html>")
  ∧ (http_method_get fsA rootA reqDirD false nowA).body ≠
      utf8Encode (py "<html><body><h1>Index of: /d</h1><p><a href='/d/a.txt'>a.txt</a></p><p><a href='/d/b.txt'>b.txt</a></p></body></html>") := by decide

end ClaimConcrete

section DictLemmas

theorem dictGet_cons_ne (p : List Nat × Option (List Nat)) (d : Headers)
    (k : List Nat) (h : p.1 ≠ k) : dictGet (p :: d) k = dictGet d k := by
  unfold dictGet
  rw [List.find?_cons_of_neg _ (by simp [h])]

theorem dictGet_cons_eq (p : List Nat × Option (List Nat)) (d : Headers)
    (k : List Nat) (h : p.1 = k) : dictGet (p :: d) k = some p.2 := by
  unfold dictGet
  rw [List.find?_cons_of_pos _ (by simp [h])]
  rfl

/-- After `d[k] = v`, looking up `k` yields `v`. -/
theorem dictGet_dictSet_self (d : Headers) (k : List Nat) (v : Option (List Nat)) :
    dictGet (dictSet d k v) k = some v := by
  induction d with
  | nil => simp [dictSet, dictGet]
  | cons p d ih =>
    by_cases hp : p.1 = k
    · rw [dictSet, if_pos hp, dictGet_cons_eq _ _ _ rfl]
    · rw [dictSet, if_neg hp, dictGet_cons_ne _ _ _ hp]
      exact ih

/-- `d[k] = v` leaves the lookup of any other key unchanged. -/
theorem dictGet_dictSet_ne (d : Headers) (k j : List Nat) (v : Option (List Nat))
    (hne : j ≠ k) : dictGet (dictSet d k v) j = dictGet d j := by
  induction d with
  | nil =>
    rw [dictSet, dictGet_cons_ne _ _ _ (Ne.symm hne)]
  | cons p d ih =>
    by_cases hp : p.1 = k
    · rw [dictSet, if_pos hp, dictGet_cons_ne _ _ _ (Ne.symm hne),
        dictGet_cons_ne _ _ _ (by rw [hp]; exact Ne.symm hne)]
    · by_cases hj : p.1 = j
      · rw [dictSet, if_neg hp, dictGet_cons_eq _ _ _ hj, dictGet_cons_eq _ _ _ hj]
      · rw [dictSet, if_neg hp, dictGet_cons_ne _ _ _ hj, dictGet_cons_ne _ _ _ hj]
        exact ih

end DictLemmas

section ServeLemmas
open HTTP_Message HTTP_Server

theorem create_response_status (m : RespMsg) (s : Status) (now : List Nat) :
    (create_response m s now).status_line =
      some (HTTP_VERSION ++ py " " ++ STATUS_CODES s) := rfl

theorem create_response_body (m : RespMsg) (s : Status) (now : List Nat) :
    (create_response m s now).body = m.body := rfl

/-- `create_response` stores the exact byte length of the message's body
under `Content-Length`. -/
theorem create_response_CL (m : RespMsg) (s : Status) (now : List Nat) :
    dictGet (create_response m s now).headers (py "Content-Length") =
      some (some (py (toString m.body.length))) := by
  simp only [create_response]
  exact dictGet_dictSet_self ..

/-- `create_response` touches no header other than its four fixed ones. -/
theorem create_response_other (m : RespMsg) (s : Status) (now k : List Nat)
    (h1 : k ≠ py "Connection") (h2 : k ≠ py "Server") (h3 : k ≠ py "Date")
    (h4 : k ≠ py "Content-Length") :
    dictGet (create_response m s now).headers k = dictGet m.headers k := by
  simp only [create_response]
  rw [dictGet_dictSet_ne _ _ _ _ h4, dictGet_dictSet_ne _ _ _ _ h3,
    dictGet_dictSet_ne _ _ _ _ h2, dictGet_dictSet_ne _ _ _ _ h1]

theorem serve_file_status (fs : FS) (fp : List Nat) (mh : Bool) (now : List Nat) :
    (serve_file fs fp mh now).status_line = some (py "HTTP/1.1 200 OK") := by
  simp only [serve_file, create_response]
  decide

theorem serve_file_body (fs : FS) (fp : List Nat) (mh : Bool) (now : List Nat) :
    (serve_file fs fp mh now).body = if mh then [] else fsRead fs fp := by
  simp only [serve_file, create_response]

theorem serve_file_CT (fs : FS) (fp : List Nat) (mh : Bool) (now : List Nat) :
    dictGet (serve_file fs fp mh now).headers (py "Content-Type") =
      some (mimeGuess fp) := by
  simp only [serve_file]
  exact dictGet_dictSet_self ..

theorem serve_file_CL (fs : FS) (fp : List Nat) (mh : Bool) (now : List Nat) :
    dictGet (serve_file fs fp mh now).headers (py "Content-Length") =
      some (some (py (toString (serve_file fs fp mh now).body.length))) := by
  rw [serve_file_body]
  simp only [serve_file]
  rw [dictGet_dictSet_ne _ _ _ _ (by decide)]
  exact create_response_CL ..

theorem serve_error_status (t : Status) (mh : Bool) (now : List Nat) :
    (serve_error t mh now).status_line =
      some (HTTP_VERSION ++ py " " ++ STATUS_CODES t) := by
  cases mh <;> simp only [serve_error, if_true, if_false, Bool.false_eq_true,
    create_response_status]

theorem serve_error_body (t : Status) (mh : Bool) (now : List Nat) :
    (serve_error t mh now).body =
      if mh then []
      else utf8Encode (py "<html><body><h1>" ++ STATUS_CODES t ++ py "</h1></body></html>") := by
  cases mh <;> simp [serve_error, create_response_body]

theorem serve_error_CL (t : Status) (mh : Bool) (now : List Nat) :
    dictGet (serve_error t mh now).headers (py "Content-Length") =
      some (some (py (toString (serve_error t mh now).body.length))) := by
  cases mh <;> simp only [serve_error, if_true, if_false, Bool.false_eq_true,
    create_response_body, create_response_CL]

theorem serve_error_CT_head (t : Status) (now : List Nat) :
    dictGet (serve_error t true now).headers (py "Content-Type") = none := by
  simp only [serve_error, if_true]
  rw [create_response_other _ _ _ _ (by decide) (by decide) (by decide) (by decide)]
  rfl

theorem serve_error_CT_body (t : Status) (now : List Nat) :
    dictGet (serve_error t false now).headers (py "Content-Type") =
      some (some (py "text/html")) := by
  simp only [serve_error, if_false, Bool.false_eq_true]
  rw [create_response_other _ _ _ _ (by decide) (by decide) (by decide) (by decide)]
  exact dictGet_dictSet_self ..

theorem serve_directory_listing_status (fs : FS) (p u : List Nat) (mh : Bool)
    (now : List Nat) :
    (serve_directory_listing fs p u mh now).status_line = some (py "HTTP/1.1 200 OK") := by
  cases mh <;> simp only [serve_directory_listing, if_true, if_false, Bool.false_eq_true,
    create_response_status] <;> decide

theorem serve_directory_listing_body (fs : FS) (p u : List Nat) (now : List Nat) :
    (serve_directory_listing fs p u false now).body =
      utf8Encode (py "<html><body><h1>Index of: " ++ u ++ py "</h1>" ++
        listingHtml u ((listdir fs p).filter (fun i => isdir fs (osPathJoin p i)))
          ((listdir fs p).filter (fun i => isfile fs (osPathJoin p i))) ++
        py "</body></html>") := by
  simp [serve_directory_listing, create_response_body]

theorem serve_directory_listing_body_head (fs : FS) (p u : List Nat) (now : List Nat) :
    (serve_directory_listing fs p u true now).body = [] := by
  simp [serve_directory_listing, create_response_body]

theorem serve_directory_listing_CL (fs : FS) (p u : List Nat) (mh : Bool)
    (now : List Nat) :
    dictGet (serve_directory_listing fs p u mh now).headers (py "Content-Length") =
      some (some (py (toString (serve_directory_listing fs p u mh now).body.length))) := by
  cases mh <;> simp only [serve_directory_listing, if_true, if_false, Bool.false_eq_true,
    create_response_body, create_response_CL]

theorem serve_directory_listing_CT_head (fs : FS) (p u : List Nat) (now : List Nat) :
    dictGet (serve_directory_listing fs p u true now).headers (py "Content-Type") = none := by
  simp only [serve_directory_listing, if_true]
  rw [create_response_other _ _ _ _ (by decide) (by decide) (by decide) (by decide)]
  rfl

end ServeLemmas

section ClaimC1
open HTTP_Message HTTP_Server

/-- C1, amended: the code performs no containment check.  For any
filesystem, document root and percent-free URI, if the joined path names
an existing file (and not a directory), the GET handler serves it with
`200 OK` and the file's bytes — even when the resolved path is not a
descendant of the document root, as the `hesc` hypothesis states. -/
theorem c1_amended (fs : FS) (web_root : List Nat) (req : ParsedReq) (now : List Nat)
    (hq : 37 ∉ req.uri)
    (hdir : isdir fs (osPathJoin web_root (req.uri.drop 1)) = false)
    (hfile : isfile fs (osPathJoin web_root (req.uri.drop 1)) = true)
    (hesc : underRoot (resolvePath web_root)
      (resolvePath (osPathJoin web_root (req.uri.drop 1))) = false) :
    (http_method_get fs web_root req false now).status_line = some (py "HTTP/1.1 200 OK")
  ∧ (http_method_get fs web_root req false now).body =
      fsRead fs (osPathJoin web_root (req.uri.drop 1)) := by
  simp only [http_method_get, unquote_no_escape _ hq, hdir, hfile, Bool.false_eq_true,
    if_false, if_true]
  exact ⟨serve_file_status .., serve_file_body ..⟩

/-- Witness for `c1_amended` at the concrete escape scenario. -/
theorem c1_witness :
    (http_method_get fsA rootA reqEscape false nowA).status_line =
      some (py "HTTP/1.1 200 OK")
  ∧ (http_method_get fsA rootA reqEscape false nowA).body =
      fsRead fsA (osPathJoin rootA (reqEscape.uri.drop 1)) :=
  c1_amended fsA rootA reqEscape nowA (by decide) (by decide) (by decide) (by decide)

end ClaimC1

section ClaimC6
open HTTP_Message HTTP_Server

/-- Every output of `http_method_get` carries a `Content-Length` header
equal to the exact byte length of its body. -/
theorem http_method_get_CL (fs : FS) (web_root : List Nat) (req : ParsedReq)
    (mh : Bool) (now : List Nat) :
    dictGet (http_method_get fs web_root req mh now).headers (py "Content-Length") =
      some (some (py (toString (http_method_get fs web_root req mh now).body.length))) := by
  simp only [http_method_get]
  by_cases hd : isdir fs (osPathJoin web_root ((unquote req.uri).drop 1)) = true
  · simp only [hd, if_true]
    cases hip : indexProbe fs (osPathJoin web_root ((unquote req.uri).drop 1)) with
    | none => exact serve_directory_listing_CL ..
    | some idx => exact serve_file_CL ..
  · simp only [hd, if_false]
    by_cases hf : isfile fs (osPathJoin web_root ((unquote req.uri).drop 1)) = true
    · simp only [hf, if_true]
      exact serve_file_CL ..
    · simp only [hf, if_false]
      exact serve_error_CL ..

/-- C6: for every response message the router generates — file response,
directory listing, index file, or error response, with or without a body —
the `Content-Length` header stored by `create_response` equals the exact
byte length of the message's body (`"0"` when the body is empty or
omitted). -/
theorem c6_content_length (fs : FS) (web_root now : List Nat) (req : ParsedReq)
    (r : RespMsg)
    (h : HTTP_Server.parse_request fs web_root req now = .ok (some r)) :
    dictGet r.headers (py "Content-Length") = some (some (py (toString r.body.length))) := by
  simp only [HTTP_Server.parse_request] at h
  by_cases h1 : req.method ∉ METHODS
  · rw [if_pos h1] at h
    cases h
    exact serve_error_CL ..
  · rw [if_neg h1] at h
    by_cases h2 : req.method ∉ IMPLEMENTED_METHODS
    · rw [if_pos h2] at h
      cases h
      exact serve_error_CL ..
    · rw [if_neg h2] at h
      by_cases h3 : req.method = py "GET"
      · rw [if_pos h3] at h
        cases h
        exact http_method_get_CL ..
      · rw [if_neg h3] at h
        by_cases h4 : req.method = py "HEAD"
        · rw [if_pos h4] at h
          cases h
        · rw [if_neg h4] at h
          cases h

/-- Witness for `c6_content_length`: the concrete `GET /f.txt` response. -/
theorem c6_witness :
    dictGet respGET.headers (py "Content-Length") =
      some (some (py (toString respGET.body.length))) :=
  c6_content_length fsA rootA nowA reqGET respGET (by decide)

end ClaimC6

section ClaimC5
open HTTP_Message HTTP_Server

/-- C5, amended: for the same URI and filesystem state the body-omitted
(HEAD-style) invocation of the GET handler yields the same status line as
the GET invocation and an empty body; its `Content-Length` is always `"0"`
(not the GET value); and its `Content-Type` equals the GET response's
exactly on the file-serving branches (plain file or directory index),
while on the directory-listing and error branches no `Content-Type` is
stored at all. -/
theorem c5_amended (fs : FS) (web_root : List Nat) (req : ParsedReq) (now : List Nat) :
    (http_method_get fs web_root req true now).status_line =
      (http_method_get fs web_root req false now).status_line
  ∧ (http_method_get fs web_root req true now).body = []
  ∧ dictGet (http_method_get fs web_root req true now).headers (py "Content-Length") =
      some (some (py "0"))
  ∧ dictGet (http_method_get fs web_root req true now).headers (py "Content-Type") =
      (if servedFileBranch fs web_root req then
        dictGet (http_method_get fs web_root req false now).headers (py "Content-Type")
      else none) := by
  simp only [http_method_get, servedFileBranch]
  by_cases hd : isdir fs (osPathJoin web_root ((unquote req.uri).drop 1)) = true
  · simp only [hd, if_true]
    cases hip : indexProbe fs (osPathJoin web_root ((unquote req.uri).drop 1)) with
    | none =>
      refine ⟨?_, serve_directory_listing_body_head .., ?_, ?_⟩
      · rw [serve_directory_listing_status, serve_directory_listing_status]
      · rw [serve_directory_listing_CL, serve_directory_listing_body_head]
        decide
      · rw [serve_directory_listing_CT_head]
        simp
    | some idx =>
      refine ⟨?_, ?_, ?_, ?_⟩
      · rw [serve_file_status, serve_file_status]
      · rw [serve_file_body]
        rfl
      · rw [serve_file_CL, serve_file_body, if_pos rfl]
        decide
      · rw [serve_file_CT, serve_file_CT]
        simp
  · simp only [hd, Bool.false_eq_true, if_false]
    by_cases hf : isfile fs (osPathJoin web_root ((unquote req.uri).drop 1)) = true
    · simp only [hf, if_true]
      refine ⟨?_, ?_, ?_, ?_⟩
      · rw [serve_file_status, serve_file_status]
      · rw [serve_file_body]
        rfl
      · rw [serve_file_CL, serve_file_body, if_pos rfl]
        decide
      · rw [serve_file_CT, serve_file_CT]
    · simp only [hf, Bool.false_eq_true, if_false]
      refine ⟨?_, ?_, ?_, ?_⟩
      · rw [serve_error_status, serve_error_status]
      · rw [serve_error_body]
        rfl
      · rw [serve_error_CL, serve_error_body, if_pos rfl]
        decide
      · rw [serve_error_CT_head]

end ClaimC5

section ClaimC3
open HTTP_Message HTTP_Server

theorem headerText_ok (d : Headers) (acc : List Nat)
    (h : ∀ p ∈ d, ∃ v, p.2 = some v) : ∃ out, headerText acc d = .ok out := by
  induction d generalizing acc with
  | nil => exact ⟨acc, rfl⟩
  | cons p d ih =>
    obtain ⟨v, hv⟩ := h p (List.mem_cons_self p d)
    obtain ⟨p1, p2⟩ := p
    cases hv
    exact ih _ (fun q hq => h q (List.mem_cons_of_mem _ hq))

theorem dictSet_allSome (d : Headers) (k v : List Nat)
    (h : ∀ p ∈ d, ∃ w, p.2 = some w) :
    ∀ p ∈ dictSet d k (some v), ∃ w, p.2 = some w := by
  induction d with
  | nil =>
    intro p hp
    rw [dictSet] at hp
    rcases List.mem_singleton.mp hp with rfl
    exact ⟨v, rfl⟩
  | cons q d ih =>
    intro p hp
    rw [dictSet] at hp
    by_cases hq : q.1 = k
    · rw [if_pos hq] at hp
      rcases List.mem_cons.mp hp with rfl | hmem
      · exact ⟨v, rfl⟩
      · exact h p (List.mem_cons_of_mem _ hmem)
    · rw [if_neg hq] at hp
      rcases List.mem_cons.mp hp with rfl | hmem
      · exact h p (List.mem_cons_self ..)
      · exact ih (fun r hr => h r (List.mem_cons_of_mem _ hr)) p hmem

/-- Every header `create_response` adds carries a real string value, so a
message whose prior headers do too serializes without fault. -/
theorem create_response_allSome (m : RespMsg) (s : Status) (now : List Nat)
    (h : ∀ p ∈ m.headers, ∃ w, p.2 = some w) :
    ∀ p ∈ (create_response m s now).headers, ∃ w, p.2 = some w := by
  simp only [create_response]
  exact dictSet_allSome _ _ _ (dictSet_allSome _ _ _ (dictSet_allSome _ _ _
    (dictSet_allSome _ _ _ h)))

/-- `serve_error` output always serializes: its status line is set and all
its header values are strings. -/
theorem to_bytestring_serve_error_ok (t : Status) (mh : Bool) (now : List Nat) :
    ∃ bs, to_bytestring (serve_error t mh now) = .ok bs := by
  have hall : ∀ p ∈ (serve_error t mh now).headers, ∃ w, p.2 = some w := by
    cases mh with
    | true =>
      simp only [serve_error, if_true]
      exact create_response_allSome _ _ _ (by intro p hp; cases hp)
    | false =>
      simp only [serve_error, Bool.false_eq_true, if_false]
      refine create_response_allSome _ _ _ ?_
      intro p hp
      rcases List.mem_singleton.mp hp with rfl
      exact ⟨_, rfl⟩
  have hsl : (serve_error t mh now).status_line =
      some (HTTP_VERSION ++ py " " ++ STATUS_CODES t) := serve_error_status ..
  obtain ⟨out, hout⟩ :=
    headerText_ok (serve_error t mh now).headers
      ((HTTP_VERSION ++ py " " ++ STATUS_CODES t) ++ py "\r\n") hall
  simp only [to_bytestring, hsl, hout]
  exact ⟨_, rfl⟩

/-- C3, amended: one Responder iteration on a dequeued pair recovers a
parse failure only when it is `HTTPBadRequest` (input shorter than 16
bytes): then the 400 response is serialized, sent and the connection
closed (`some (errorResponseBytes now)`).  A parse failure carrying any
other exception propagates uncaught: nothing is sent, the connection stays
open, and the Responder terminates (`none`). -/
theorem c3_amended (fs : FS) (web_root now data : List Nat) (e : PyErr)
    (he : HTTP_Message.parse_request data = .error e) :
    process_requests_step fs web_root now data =
      if e = .badRequest then some (errorResponseBytes now) else none := by
  unfold process_requests_step
  rw [he]
  cases e with
  | badRequest =>
    rw [if_pos rfl]
    obtain ⟨bs, hbs⟩ := to_bytestring_serve_error_ok .badRequest false now
    unfold errorResponseBytes
    rw [hbs]
  | unicodeError => rfl
  | indexError => rfl
  | valueError => rfl
  | typeError => rfl

/-- Witness for `c3_amended`: a one-byte input is recovered into the
serialized 400 response. -/
theorem c3_witness :
    process_requests_step fsA rootA nowA (py "x") =
      if PyErr.badRequest = PyErr.badRequest then some (errorResponseBytes nowA)
      else none :=
  c3_amended fsA rootA nowA (py "x") .badRequest (by decide)

end ClaimC3

section ClaimC8
open HTTP_Message HTTP_Server

/-- C8, amended: for a URI resolving to a directory, the GET handler
serves the index file when `index.html` or `index.htm` exists (probed in
that order, first existing file wins — `indexProbe`), and only otherwise
the directory listing; an index hit is served as a 200 with the file's
bytes and a listing is never produced.  The listing itself is a 200; an
empty directory's listing body is the HTML wrapper around the
directory-is-empty notice.  (Children are kept in the filesystem's
enumeration order — the code never sorts them.) -/
theorem c8_amended (fs : FS) (web_root : List Nat) (req : ParsedReq) (mh : Bool)
    (now : List Nat)
    (hq : 37 ∉ req.uri)
    (hdir : isdir fs (osPathJoin web_root (req.uri.drop 1)) = true) :
    http_method_get fs web_root req mh now =
      (match indexProbe fs (osPathJoin web_root (req.uri.drop 1)) with
       | some index_file => serve_file fs index_file mh now
       | none =>
         serve_directory_listing fs (osPathJoin web_root (req.uri.drop 1)) req.uri mh now)
  ∧ (∀ idx, indexProbe fs (osPathJoin web_root (req.uri.drop 1)) = some idx →
      (http_method_get fs web_root req false now).status_line =
        some (py "HTTP/1.1 200 OK")
      ∧ (http_method_get fs web_root req false now).body = fsRead fs idx)
  ∧ (serve_directory_listing fs (osPathJoin web_root (req.uri.drop 1)) req.uri
        false now).status_line = some (py "HTTP/1.1 200 OK")
  ∧ (listdir fs (osPathJoin web_root (req.uri.drop 1)) = [] →
      (serve_directory_listing fs (osPathJoin web_root (req.uri.drop 1)) req.uri
          false now).body =
        utf8Encode (py "<html><body><h1>Index of: " ++ req.uri ++ py "</h1>" ++
          py "<p>This directory is empty.</p>" ++ py "</body></html>")) := by
  refine ⟨?_, ?_, serve_directory_listing_status .., ?_⟩
  · simp only [http_method_get, unquote_no_escape _ hq, hdir, if_true]
    cases hip : indexProbe fs (osPathJoin web_root (req.uri.drop 1)) <;> rfl
  · intro idx hip
    simp only [http_method_get, unquote_no_escape _ hq, hdir, if_true, hip]
    refine ⟨serve_file_status .., ?_⟩
    rw [serve_file_body]
    rfl
  · intro hld
    rw [serve_directory_listing_body, hld]
    simp [listingHtml]

/-- Witness for `c8_amended` at the concrete directory `/d` of `fsA`. -/
theorem c8_witness :
    http_method_get fsA rootA reqDirD false nowA =
      (match indexProbe fsA (osPathJoin rootA (reqDirD.uri.drop 1)) with
       | some index_file => serve_file fsA index_file false nowA
       | none =>
         serve_directory_listing fsA (osPathJoin rootA (reqDirD.uri.drop 1))
           reqDirD.uri false nowA) :=
  (c8_amended fsA rootA reqDirD false nowA (by decide) (by decide)).1

end ClaimC8

section ClaimC2
open HTTP_Message

/-- The header loop can fail only with `ValueError`, never with
`HTTPBadRequest`. -/
theorem parseHeadersAux_ne_badRequest (ls : List (List Nat)) (acc : Headers) :
    parseHeadersAux acc ls ≠ .error .badRequest := by
  induction ls generalizing acc with
  | nil => simp [parseHeadersAux]
  | cons l ls ih =>
    rw [parseHeadersAux]
    split
    · exact ih _
    · simp

/-- C2, amended: `parse_request` raises `HTTPBadRequest` exactly when the
raw input is shorter than 16 bytes.  Past the length check no path raises
it: undecodable input raises `UnicodeDecodeError`, a short request line
`IndexError`, a bad header line `ValueError`, and everything else
succeeds. -/
theorem c2_amended (data : List Nat) :
    HTTP_Message.parse_request data = .error .badRequest ↔ data.length < 16 := by
  by_cases hlen : data.length < 16
  · simp [HTTP_Message.parse_request, hlen]
  · rw [HTTP_Message.parse_request, if_neg hlen]
    apply iff_of_false ?_ hlen
    cases hdec : utf8Decode data with
    | none => simp
    | some req =>
      simp only []
      split
      · split
        · simp
        · next e heq =>
          intro hcontra
          rw [show e = PyErr.badRequest from by injection hcontra] at heq
          exact parseHeadersAux_ne_badRequest _ _ heq
      · simp

end ClaimC2

section SplitLemmas

/-- `splitSeqAux` ignores the fuel once it covers the input length. -/
theorem splitSeqAux_fuel_eq (c : Nat) (cs : List Nat) :
    ∀ (f1 f2 : Nat) (xs acc : List Nat), xs.length ≤ f1 → xs.length ≤ f2 →
      splitSeqAux c cs acc xs f1 = splitSeqAux c cs acc xs f2 := by
  intro f1
  induction f1 with
  | zero =>
    intro f2 xs acc h1 h2
    have hx : xs = [] := List.length_eq_zero.mp (Nat.le_zero.mp h1)
    subst hx
    cases f2 <;> rfl
  | succ f1 ih =>
    intro f2 xs acc h1 h2
    cases xs with
    | nil => cases f2 <;> rfl
    | cons x xs1 =>
      cases f2 with
      | zero => simp at h2
      | succ f2 =>
        simp only [splitSeqAux]
        by_cases hl : leadsWith (c :: cs) (x :: xs1) = true
        · rw [if_pos hl, if_pos hl]
          have hd1 : (xs1.drop cs.length).length ≤ f1 := by
            simp only [List.length_drop]
            simp only [List.length_cons] at h1
            omega
          have hd2 : (xs1.drop cs.length).length ≤ f2 := by
            simp only [List.length_drop]
            simp only [List.length_cons] at h2
            omega
          rw [ih f2 _ [] hd1 hd2]
        · rw [if_neg hl, if_neg hl]
          have hx1 : xs1.length ≤ f1 := by simp only [List.length_cons] at h1; omega
          have hx2 : xs1.length ≤ f2 := by simp only [List.length_cons] at h2; omega
          exact ih f2 _ (x :: acc) hx1 hx2

/-- A fragment free of the separator is returned whole. -/
theorem splitSeqAux_no_sep (c : Nat) (cs : List Nat) :
    ∀ (xs acc : List Nat) (fuel : Nat), xs.length ≤ fuel →
      hasSeq c cs xs = false →
      splitSeqAux c cs acc xs fuel = [acc.reverse ++ xs] := by
  intro xs
  induction xs with
  | nil => intro acc fuel _ _; cases fuel <;> simp [splitSeqAux]
  | cons x xs1 ih =>
    intro acc fuel hf ha
    cases fuel with
    | zero => simp at hf
    | succ f =>
      simp only [hasSeq, Bool.or_eq_false_iff] at ha
      simp only [splitSeqAux, ha.1, Bool.false_eq_true, if_false]
      rw [ih (x :: acc) f (by simp only [List.length_cons] at hf; omega) ha.2]
      simp

theorem splitSeq_no_sep (c : Nat) (cs xs : List Nat) (h : hasSeq c cs xs = false) :
    splitSeq c cs xs = [xs] := by
  rw [splitSeq, splitSeqAux_no_sep c cs xs [] xs.length le_rfl h]
  rfl

/-- Splitting at the first occurrence of a two-character separator whose
characters differ. -/
theorem splitSeqAux_append_pair (s0 s1 : Nat) (hne : s0 ≠ s1) :
    ∀ (a acc rest : List Nat) (fuel : Nat),
      (a ++ s0 :: s1 :: rest).length ≤ fuel → hasSeq s0 [s1] a = false →
      splitSeqAux s0 [s1] acc (a ++ s0 :: s1 :: rest) fuel =
        (acc.reverse ++ a) :: splitSeq s0 [s1] rest := by
  intro a
  induction a with
  | nil =>
    intro acc rest fuel hf _
    cases fuel with
    | zero => simp at hf
    | succ f =>
      have hl : leadsWith (s0 :: [s1]) (s0 :: s1 :: rest) = true := by
        simp [leadsWith]
      simp only [List.nil_append, splitSeqAux, hl, if_true]
      have hfl : rest.length ≤ f := by
        simp at hf
        omega
      rw [show ((s1 :: rest).drop ([s1] : List Nat).length) = rest from rfl]
      rw [splitSeqAux_fuel_eq s0 [s1] f rest.length rest []  hfl le_rfl]
      simp [splitSeq]
  | cons x a1 ih =>
    intro acc rest fuel hf ha
    cases fuel with
    | zero => simp at hf
    | succ f =>
      simp only [hasSeq, Bool.or_eq_false_iff] at ha
      have hl : leadsWith (s0 :: [s1]) (x :: (a1 ++ s0 :: s1 :: rest)) = false := by
        cases a1 with
        | nil =>
          simp only [List.cons_append, List.nil_append, leadsWith]
          by_cases hx : s0 == x
          · have : (s1 == s0) = false := by
              simp only [beq_eq_false_iff_ne]
              exact Ne.symm hne
            simp [leadsWith, this]
          · simp [hx]
        | cons y a2 =>
          have := ha.1
          simp only [leadsWith, List.cons_append] at this ⊢
          rcases Bool.and_eq_false_iff.mp this with h0 | h1
          · simp [h0]
          · rcases Bool.and_eq_false_iff.mp h1 with h2 | h3
            · simp [h2]
            · simp [leadsWith] at h3
      simp only [List.cons_append, splitSeqAux, List.append_eq, hl, Bool.false_eq_true,
        if_false] 
      rw [show (x :: a1) ++ s0 :: s1 :: rest = x :: (a1 ++ s0 :: s1 :: rest) from rfl] at hf
      rw [ih (x :: acc) rest f (by simp only [List.length_cons] at hf ⊢; omega) ha.2]
      simp

theorem splitSeq_append_pair (s0 s1 : Nat) (hne : s0 ≠ s1) (a rest : List Nat)
    (ha : hasSeq s0 [s1] a = false) :
    splitSeq s0 [s1] (a ++ s0 :: s1 :: rest) = a :: splitSeq s0 [s1] rest := by
  rw [splitSeq, splitSeqAux_append_pair s0 s1 hne a [] rest _ le_rfl ha]
  rfl

/-- Splitting at the first occurrence of a single-character separator. -/
theorem splitSeqAux_append_single (s0 : Nat) :
    ∀ (a acc rest : List Nat) (fuel : Nat),
      (a ++ s0 :: rest).length ≤ fuel → hasSeq s0 [] a = false →
      splitSeqAux s0 [] acc (a ++ s0 :: rest) fuel =
        (acc.reverse ++ a) :: splitSeq s0 [] rest := by
  intro a
  induction a with
  | nil =>
    intro acc rest fuel hf _
    cases fuel with
    | zero => simp at hf
    | succ f =>
      have hl : leadsWith [s0] (s0 :: rest) = true := by simp [leadsWith]
      simp only [List.nil_append, splitSeqAux, hl, if_true]
      have hfl : rest.length ≤ f := by
        simp at hf
        omega
      rw [show (rest.drop ([] : List Nat).length) = rest from rfl]
      rw [splitSeqAux_fuel_eq s0 [] f rest.length rest [] hfl le_rfl]
      simp [splitSeq]
  | cons x a1 ih =>
    intro acc rest fuel hf ha
    cases fuel with
    | zero => simp at hf
    | succ f =>
      simp only [hasSeq, Bool.or_eq_false_iff] at ha
      have hl : leadsWith [s0] (x :: (a1 ++ s0 :: rest)) = false := by
        have := ha.1
        simp only [leadsWith, List.cons_append] at this ⊢
        simpa using this
      simp only [List.cons_append, splitSeqAux, List.append_eq, hl, Bool.false_eq_true,
        if_false] 
      rw [show (x :: a1) ++ s0 :: rest = x :: (a1 ++ s0 :: rest) from rfl] at hf
      rw [ih (x :: acc) rest f (by simp only [List.length_cons] at hf ⊢; omega) ha.2]
      simp

theorem splitSeq_append_single (s0 : Nat) (a rest : List Nat)
    (ha : hasSeq s0 [] a = false) :
    splitSeq s0 [] (a ++ s0 :: rest) = a :: splitSeq s0 [] rest := by
  rw [splitSeq, splitSeqAux_append_single s0 a [] rest _ le_rfl ha]
  rfl

/-- A separator whose first character is absent never occurs. -/
theorem hasSeq_of_not_mem (c : Nat) (cs xs : List Nat) (h : c ∉ xs) :
    hasSeq c cs xs = false := by
  induction xs with
  | nil => rfl
  | cons x xs1 ih =>
    have hx : c ≠ x := fun hc => h (hc ▸ List.mem_cons_self x xs1)
    have hr : c ∉ xs1 := fun hc => h (List.mem_cons_of_mem _ hc)
    simp [hasSeq, leadsWith, hx, ih hr]

end SplitLemmas

section Utf8Lemmas

/-- One decoding step never yields more bytes than it was given. -/
theorem utf8DecodeStep_length (b : Nat) (bs : List Nat) (cp : Nat) (rest : List Nat)
    (h : utf8DecodeStep b bs = some (cp, rest)) : rest.length ≤ bs.length := by
  unfold utf8DecodeStep at h
  split at h
  · injection h with h2
    injection h2 with hcp hrest
    subst hrest
    exact le_rfl
  · split at h
    · simp at h
    · split at h
      · unfold utf8Cont2 at h
        split at h
        · split at h
          · injection h with h2
            injection h2 with hcp hrest
            subst hrest
            simp
          · simp at h
        · simp at h
      · split at h
        · unfold utf8Cont3 at h
          split at h
          · split at h
            · injection h with h2
              injection h2 with hcp hrest
              subst hrest
              simp
              omega
            · simp at h
          · simp at h
        · split at h
          · unfold utf8Cont4 at h
            split at h
            · split at h
              · injection h with h2
                injection h2 with hcp hrest
                subst hrest
                simp
                omega
              · simp at h
            · simp at h
          · simp at h

/-- The decoding loop ignores the fuel once it covers the byte count. -/
theorem utf8DecodeAux_fuel_eq :
    ∀ (f1 f2 : Nat) (bs : List Nat), bs.length ≤ f1 → bs.length ≤ f2 →
      utf8DecodeAux f1 bs = utf8DecodeAux f2 bs := by
  intro f1
  induction f1 with
  | zero =>
    intro f2 bs h1 _
    have hx : bs = [] := List.length_eq_zero.mp (Nat.le_zero.mp h1)
    subst hx
    cases f2 <;> rfl
  | succ f1 ih =>
    intro f2 bs h1 h2
    cases bs with
    | nil => cases f2 <;> rfl
    | cons b bs1 =>
      cases f2 with
      | zero => simp at h2
      | succ f2 =>
        simp only [utf8DecodeAux]
        cases hstep : utf8DecodeStep b bs1 with
        | none => rfl
        | some pr =>
          obtain ⟨cp, rest⟩ := pr
          have hrest : rest.length ≤ bs1.length := utf8DecodeStep_length b bs1 cp rest hstep
          simp only [List.length_cons] at h1 h2
          simp only []
          rw [ih f2 rest (by omega) (by omega)]

/-- A decoding step applied to the UTF-8 bytes of one valid codepoint
recovers that codepoint and the remaining bytes. -/
theorem utf8DecodeStep_encodeCp (n : Nat) (rest : List Nat) (h : ValidCp n) :
    ∃ b bs, utf8EncodeCp n ++ rest = b :: bs ∧ utf8DecodeStep b bs = some (n, rest) ∧
      rest.length ≤ bs.length := by
  by_cases h1 : n < 0x80
  · refine ⟨n, rest, ?_, ?_, le_rfl⟩
    · rw [utf8EncodeCp, if_pos h1]
      rfl
    · rw [utf8DecodeStep, if_pos h1]
  · by_cases h2 : n < 0x800
    · refine ⟨0xC0 + n / 64, (0x80 + n % 64) :: rest, ?_, ?_, by simp⟩
      · rw [utf8EncodeCp, if_neg h1, if_pos h2]
        rfl
      · rw [utf8DecodeStep, if_neg (by omega), if_neg (by omega), if_pos (by omega),
          utf8Cont2, if_pos (by omega)]
        simp only [show (0xC0 + n / 64 - 0xC0) * 64 + (0x80 + n % 64 - 0x80) = n from by omega]
    · by_cases h3 : n < 0x10000
      · refine ⟨0xE0 + n / 4096, (0x80 + n / 64 % 64) :: (0x80 + n % 64) :: rest, ?_, ?_,
          by simp; omega⟩
        · rw [utf8EncodeCp, if_neg h1, if_neg h2, if_pos h3]
          rfl
        · rw [utf8DecodeStep, if_neg (by omega), if_neg (by omega), if_neg (by omega),
            if_pos (by omega), utf8Cont3,
            if_pos (by rcases h with hlow | ⟨hge, hlt⟩ <;> omega)]
          simp only [show (0xE0 + n / 4096 - 0xE0) * 4096 + (0x80 + n / 64 % 64 - 0x80) * 64 +
            (0x80 + n % 64 - 0x80) = n from by omega]
      · have hup : n < 0x110000 := by rcases h with hlow | ⟨hge, hlt⟩ <;> omega
        refine ⟨0xF0 + n / 262144,
          (0x80 + n / 4096 % 64) :: (0x80 + n / 64 % 64) :: (0x80 + n % 64) :: rest, ?_, ?_,
          by simp; omega⟩
        · rw [utf8EncodeCp, if_neg h1, if_neg h2, if_neg h3]
          rfl
        · rw [utf8DecodeStep, if_neg (by omega), if_neg (by omega), if_neg (by omega),
            if_neg (by omega), if_pos (by omega), utf8Cont4, if_pos (by omega)]
          simp only [show (0xF0 + n / 262144 - 0xF0) * 262144 +
            (0x80 + n / 4096 % 64 - 0x80) * 4096 + (0x80 + n / 64 % 64 - 0x80) * 64 +
            (0x80 + n % 64 - 0x80) = n from by omega]

theorem utf8DecodeAux_encode (s : List Nat) :
    ∀ (fuel : Nat), (∀ c ∈ s, ValidCp c) → (utf8Encode s).length ≤ fuel →
      utf8DecodeAux fuel (utf8Encode s) = some s := by
  induction s with
  | nil =>
    intro fuel _ _
    cases fuel <;> rfl
  | cons c s ih =>
    intro fuel hv hfuel
    obtain ⟨b, bs, heq, hstep, hlen⟩ :=
      utf8DecodeStep_encodeCp c (utf8Encode s) (hv c (List.mem_cons_self ..))
    have heq2 : utf8Encode (c :: s) = b :: bs := heq
    rw [heq2] at hfuel ⊢
    cases fuel with
    | zero => simp at hfuel
    | succ f =>
      simp only [utf8DecodeAux, hstep]
      have hrest : (utf8Encode s).length ≤ f := by
        simp only [List.length_cons] at hfuel
        omega
      rw [utf8DecodeAux_fuel_eq f (utf8Encode s).length _ (by omega) le_rfl]
      rw [ih (utf8Encode s).length (fun x hx => hv x (List.mem_cons_of_mem _ hx)) le_rfl]
      rfl

/-- `bytes(s, "utf-8").decode("utf-8")` is the identity on valid strings. -/
theorem utf8Decode_utf8Encode (s : List Nat) (h : ∀ c ∈ s, ValidCp c) :
    utf8Decode (utf8Encode s) = some s :=
  utf8DecodeAux_encode s _ h le_rfl

end Utf8Lemmas

section ClaimC7
open HTTP_Message HTTP_Server

/-- Setting a fresh key appends it (the Python dict append case). -/
theorem dictSet_append (d : Headers) (k : List Nat) (v : Option (List Nat))
    (h : ∀ q ∈ d, q.1 ≠ k) : dictSet d k v = d ++ [(k, v)] := by
  induction d with
  | nil => rfl
  | cons p d ih =>
    rw [dictSet, if_neg (h p (List.mem_cons_self ..)),
      ih (fun q hq => h q (List.mem_cons_of_mem _ hq))]
    rfl

theorem dropLast_two (l : List (List Nat)) (x y : List Nat) :
    ((l ++ [x, y]).dropLast).dropLast = l := by
  rw [show l ++ [x, y] = (l ++ [x]) ++ [y] from by simp]
  rw [List.dropLast_concat, List.dropLast_concat]

/-- CRLF-splitting the encoded header block yields the header lines, the
blank line and the body. -/
theorem splitSeq_encodeTail (hs : List (List Nat × List Nat)) (body : List Nat)
    (hhs : ∀ p ∈ hs, 13 ∉ p.1 ∧ 13 ∉ p.2) (hbody : 13 ∉ body) :
    splitSeq 13 [10] (encodeTail hs body) =
      hs.map (fun p => p.1 ++ 58 :: 32 :: p.2) ++ [[], body] := by
  induction hs with
  | nil =>
    show splitSeq 13 [10] ([] ++ 13 :: 10 :: body) = [[], body]
    rw [splitSeq_append_pair 13 10 (by decide) [] body (by rfl)]
    rw [splitSeq_no_sep _ _ _ (hasSeq_of_not_mem _ _ _ hbody)]
  | cons p hs ih =>
    obtain ⟨f, w⟩ := p
    obtain ⟨h1, h2⟩ := hhs (f, w) (List.mem_cons_self ..)
    have hline13 : 13 ∉ f ++ 58 :: 32 :: w := by
      simp only [List.mem_append, List.mem_cons]
      push_neg
      exact ⟨h1, by decide, by decide, h2⟩
    have hshape : encodeTail ((f, w) :: hs) body =
        (f ++ 58 :: 32 :: w) ++ 13 :: 10 :: encodeTail hs body := by
      simp [encodeTail, List.append_assoc]
    rw [hshape,
      splitSeq_append_pair 13 10 (by decide) _ _ (hasSeq_of_not_mem _ _ _ hline13),
      ih (fun q hq => hhs q (List.mem_cons_of_mem _ hq))]
    rfl

/-- Space-splitting the encoded request line yields exactly the three
tokens. -/
theorem splitSeq_reqline (m u v : List Nat) (hm : 32 ∉ m) (hu : 32 ∉ u) (hv : 32 ∉ v) :
    splitSeq 32 [] (m ++ 32 :: (u ++ 32 :: v)) = [m, u, v] := by
  rw [splitSeq_append_single 32 m _ (hasSeq_of_not_mem _ _ _ hm),
    splitSeq_append_single 32 u _ (hasSeq_of_not_mem _ _ _ hu),
    splitSeq_no_sep _ _ _ (hasSeq_of_not_mem _ _ _ hv)]

/-- The header loop recovers the encoded fields in order when the lines
are well formed and the field names do not repeat. -/
theorem parseHeadersAux_encode (hs : List (List Nat × List Nat)) :
    ∀ acc : Headers,
      (∀ p ∈ hs, ∀ q ∈ acc, q.1 ≠ p.1) →
      hs.Pairwise (fun p q => p.1 ≠ q.1) →
      (∀ p ∈ hs, hasSeq 58 [32] p.1 = false ∧ hasSeq 58 [32] p.2 = false) →
      parseHeadersAux acc (hs.map (fun p => p.1 ++ 58 :: 32 :: p.2)) =
        .ok (acc ++ hs.map (fun p => (p.1, some p.2))) := by
  induction hs with
  | nil =>
    intro acc _ _ _
    simp [parseHeadersAux]
  | cons p hs ih =>
    intro acc hdisj hpw hsep
    obtain ⟨f, w⟩ := p
    obtain ⟨hf, hw⟩ := hsep (f, w) (List.mem_cons_self ..)
    have hsplit : splitSeq 58 [32] (f ++ 58 :: 32 :: w) = [f, w] := by
      rw [splitSeq_append_pair 58 32 (by decide) f w hf, splitSeq_no_sep _ _ _ hw]
    simp only [List.map_cons, parseHeadersAux, hsplit]
    rw [dictSet_append acc f (some w) (fun q hq => hdisj (f, w) (List.mem_cons_self ..) q hq)]
    have hpw2 := (List.pairwise_cons.mp hpw)
    rw [ih (acc ++ [(f, some w)]) ?disj hpw2.2
      (fun q hq => hsep q (List.mem_cons_of_mem _ hq))]
    · simp
    case disj =>
      intro q hq r hr
      rcases List.mem_append.mp hr with hr1 | hr2
      · exact hdisj q (List.mem_cons_of_mem _ hq) r hr1
      · rcases List.mem_singleton.mp hr2 with rfl
        exact hpw2.1 q hq
end ClaimC7

section ClaimC7Main
open HTTP_Message HTTP_Server

theorem getLastD_cons_append_two (x : List Nat) (l : List (List Nat)) (a b : List Nat) :
    (x :: (l ++ [a, b])).getLastD [] = b := by
  have h : (x :: (l ++ [a, b])).getLast? = some b := by
    rw [show x :: (l ++ [a, b]) = (x :: (l ++ [a])) ++ [b] from by simp]
    exact List.getLast?_concat _
  simp [h]

/-- C7, amended.  Request half: for well-formed synthetic request bytes —
valid codepoints, at least 16 bytes, space-free tokens, CR-free
components, header lines with exactly one `": "` separator, distinct field
names — `parse_request` recovers exactly the encoded method, target,
version, header fields/values (in insertion order) and body.  Response
half: serialization is not the mirror of request parsing — re-parsing the
serialized output of a `create_response`-built message fails with
`ValueError` for every status (the trailing CRLF shifts the frame so the
blank separator line lands among the header lines), instead of recovering
the status line, headers and body. -/
theorem c7_amended (m u v : List Nat) (hs : List (List Nat × List Nat)) (body : List Nat)
    (hvalid : ∀ ch ∈ reqText m u v hs body, ValidCp ch)
    (hlen : ¬ (encodeRequest m u v hs body).length < 16)
    (hm32 : 32 ∉ m) (hu32 : 32 ∉ u) (hv32 : 32 ∉ v)
    (hm13 : 13 ∉ m) (hu13 : 13 ∉ u) (hv13 : 13 ∉ v)
    (hhs13 : ∀ p ∈ hs, 13 ∉ p.1 ∧ 13 ∉ p.2)
    (hbody13 : 13 ∉ body)
    (hsep : ∀ p ∈ hs, hasSeq 58 [32] p.1 = false ∧ hasSeq 58 [32] p.2 = false)
    (hpw : hs.Pairwise (fun p q => p.1 ≠ q.1)) :
    HTTP_Message.parse_request (encodeRequest m u v hs body) =
      .ok ⟨m, u, v, hs.map (fun p => (p.1, some p.2)), body⟩
  ∧ (match to_bytestring (create_response ⟨none, [], []⟩ .ok nowA) with
      | .ok bs => HTTP_Message.parse_request bs
      | .error e => .error e) = .error .valueError
  ∧ (match to_bytestring (create_response ⟨none, [], []⟩ .badRequest nowA) with
      | .ok bs => HTTP_Message.parse_request bs
      | .error e => .error e) = .error .valueError
  ∧ (match to_bytestring (create_response ⟨none, [], []⟩ .notFound nowA) with
      | .ok bs => HTTP_Message.parse_request bs
      | .error e => .error e) = .error .valueError
  ∧ (match to_bytestring (create_response ⟨none, [], []⟩ .notImplemented nowA) with
      | .ok bs => HTTP_Message.parse_request bs
      | .error e => .error e) = .error .valueError := by
  refine ⟨?_, by decide, by decide, by decide, by decide⟩
  rw [HTTP_Message.parse_request, if_neg hlen]
  rw [show utf8Decode (encodeRequest m u v hs body) = some (reqText m u v hs body) from
    utf8Decode_utf8Encode _ hvalid]
  simp only []
  have hline13 : 13 ∉ m ++ 32 :: (u ++ 32 :: v) := by
    simp only [List.mem_append, List.mem_cons]
    push_neg
    exact ⟨hm13, by decide, hu13, by decide, hv13⟩
  have hshape : reqText m u v hs body =
      (m ++ 32 :: (u ++ 32 :: v)) ++ 13 :: 10 :: encodeTail hs body := by
    simp [reqText, List.append_assoc]
  have hsplit1 : splitSeq 13 [10] (reqText m u v hs body) =
      (m ++ 32 :: (u ++ 32 :: v)) ::
        (hs.map (fun p => p.1 ++ 58 :: 32 :: p.2) ++ [[], body]) := by
    rw [hshape, splitSeq_append_pair 13 10 (by decide) _ _
      (hasSeq_of_not_mem _ _ _ hline13), splitSeq_encodeTail hs body hhs13 hbody13]
  rw [hsplit1]
  simp only [List.headD, List.drop_succ_cons, List.drop_zero]
  rw [dropLast_two, getLastD_cons_append_two,
    splitSeq_reqline m u v hm32 hu32 hv32]
  simp only []
  rw [parseHeadersAux_encode hs [] (fun p _ q hq => absurd hq (List.not_mem_nil q))
    hpw hsep]
  simp only [List.nil_append]

/-- Witness for `c7_amended`: a concrete well-formed request round-trips. -/
theorem c7_witness :
    HTTP_Message.parse_request (encodeRequest (py "GET") (py "/index.html")
      (py "HTTP/1.1") [(py "Host", py "localhost")] []) =
      .ok ⟨py "GET", py "/index.html", py "HTTP/1.1",
        [(py "Host", some (py "localhost"))], []⟩ :=
  (c7_amended (py "GET") (py "/index.html") (py "HTTP/1.1")
    [(py "Host", py "localhost")] [] (by decide) (by decide) (by decide) (by decide)
    (by decide) (by decide) (by decide) (by decide) (by decide) (by decide)
    (by decide) (by decide)).1

end ClaimC7Main
